import Mathlib

/-!
Verification development for the quiz-solver repository.

The JavaScript sources (`data-processor.js` with the embedded legacy
`solver.js`, `solver-llm.js`, `audio-transcriber.js`) are shallowly embedded
below.  Strings are modelled as `List Char`; JavaScript numbers are modelled
as exact fractions (`JsNum`, an `Int` numerator over a `Nat` denominator with
cross-multiplication comparison) — every computation the theorems evaluate
stays far inside the range where IEEE doubles are exact, so the model is
faithful there.  Asynchronous I/O (page rendering, downloads, submissions)
is replaced by explicit oracles: a `Script` maps an attempt number to the
answer produced by the resolution pipeline and the server's response.
-/

namespace QuizSolver

/-- Characters of a string literal; all scanning below works on `List Char`. -/
def cs (s : String) : List Char := s.data

/-- Model of the JavaScript whitespace class used by `trim` and `\s`. -/
def jsSpace (c : Char) : Bool := c.isWhitespace

/-- Model of JavaScript `String.prototype.trim`. -/
def jsTrim (l : List Char) : List Char :=
  ((l.dropWhile jsSpace).reverse.dropWhile jsSpace).reverse

/-- Model of JavaScript `String.prototype.split` with a one-character
separator: `"a,b,".split(',') = ["a","b",""]`. -/
def splitOnChar (sep : Char) : List Char → List (List Char)
  | [] => [[]]
  | c :: r =>
    let rest := splitOnChar sep r
    if c = sep then [] :: rest
    else
      match rest with
      | h :: t => (c :: h) :: t
      | [] => [[c]]

/-- Lower-case a character stream; running the case-sensitive scanners on the
lowered stream models the JavaScript `/i` regex flag. -/
def toLowerList (l : List Char) : List Char := l.map Char.toLower

/-- Boolean list-prefix test (literal regex alternative matching). -/
def listPrefixOf : List Char → List Char → Bool
  | [], _ => true
  | _ :: _, [] => false
  | a :: p, b :: s => a = b && listPrefixOf p s

/-- Substring containment, modelling `RegExp.prototype.test` on a literal. -/
def containsSub (p : List Char) : List Char → Bool
  | [] => listPrefixOf p []
  | s@(_ :: r) => listPrefixOf p s || containsSub p r

/-- Value of a run of decimal digits, as `parseInt` computes it. -/
def digitsToNat (ds : List Char) : Nat :=
  ds.foldl (fun n c => 10 * n + (c.toNat - 48)) 0

/-- Leftmost match of `/\d+/`: the first maximal digit run, as a number. -/
def firstDigitRun : List Char → Option Nat
  | [] => none
  | c :: r =>
    if c.isDigit then some (digitsToNat ((c :: r).takeWhile Char.isDigit))
    else firstDigitRun r

/-- Try one literal regex alternative at the current position, followed by
`\s*(\d+)`; returns the captured number. -/
def matchOpAt (alt : List Char) (s : List Char) : Option Nat :=
  if listPrefixOf alt s then
    let rest := (s.drop alt.length).dropWhile jsSpace
    let ds := rest.takeWhile Char.isDigit
    if ds = [] then none else some (digitsToNat ds)
  else none

/-- Try a list of tagged alternatives at the current position, in the order
the regex alternation lists them (the JavaScript backtracking order). -/
def tryTokAt (alts : List (List Char × α)) (s : List Char) : Option (α × Nat) :=
  match alts with
  | [] => none
  | (p, tag) :: r =>
    match matchOpAt p s with
    | some v => some (tag, v)
    | none => tryTokAt r s

/-- Leftmost match of an alternation followed by `\s*(\d+)` — the semantics
of a single `String.prototype.match` call on such a pattern. -/
def scanTok (alts : List (List Char × α)) : List Char → Option (α × Nat)
  | [] => tryTokAt alts []
  | s@(_ :: rest) =>
    match tryTokAt alts s with
    | some x => some x
    | none => scanTok alts rest

/-- Word characters, for the `\b` boundary of the header-priority regex. -/
def isWordChar (c : Char) : Bool := c.isAlphanum || c = '_'

/-- The position after a matched token is a word boundary. -/
def boundaryAfter : List Char → Bool
  | [] => true
  | c :: _ => !isWordChar c

/-- Scan for a whole-word occurrence of `tok`; `prevW` records whether the
character before the current position is a word character. -/
def containsWordFrom (tok : List Char) : Bool → List Char → Bool
  | _, [] => false
  | prevW, s@(c :: r) =>
    (listPrefixOf tok s && !prevW && boundaryAfter (s.drop tok.length)) ||
      containsWordFrom tok (isWordChar c) r

/-! ## Exact JavaScript numbers -/

/-- Exact model of a JavaScript number: an integer numerator over a natural
denominator.  All operations the embedded code performs keep denominators
positive; comparisons are by cross multiplication, so no normalisation (and
hence no kernel-opaque `gcd`) is ever needed. -/
structure JsNum where
  n : Int
  d : Nat
deriving DecidableEq, Repr

/-- The rational value of a `JsNum`, for value-level statements. -/
def JsNum.toRat (q : JsNum) : ℚ := (q.n : ℚ) / (q.d : ℚ)

def jsOfNat (n : Nat) : JsNum := ⟨n, 1⟩

def jsZero : JsNum := ⟨0, 1⟩

def JsNum.add (a b : JsNum) : JsNum := ⟨a.n * b.d + b.n * a.d, a.d * b.d⟩

def JsNum.neg (a : JsNum) : JsNum := ⟨-a.n, a.d⟩

def JsNum.mul (a b : JsNum) : JsNum := ⟨a.n * b.n, a.d * b.d⟩

def JsNum.div (a b : JsNum) : JsNum :=
  ⟨a.n * (if b.n < 0 then -(b.d : Int) else (b.d : Int)), a.d * b.n.natAbs⟩

/-- JavaScript `<` on numbers (denominators are positive throughout). -/
def jsLt (a b : JsNum) : Bool := a.n * b.d < b.n * a.d

/-- JavaScript `<=` on numbers. -/
def jsLe (a b : JsNum) : Bool := a.n * b.d ≤ b.n * a.d

/-- JavaScript `==` on two numbers. -/
def jsEq (a b : JsNum) : Bool := a.n * b.d = b.n * a.d

/-- Left-fold sum with the JavaScript addition, the shape of every
`reduce((a, b) => a + b, 0)` in the sources. -/
def jsSum (l : List JsNum) : JsNum := l.foldl JsNum.add jsZero

/-- Fractional value of the digits after a decimal point. -/
def fracVal (ds : List Char) : JsNum := ⟨digitsToNat ds, 10 ^ ds.length⟩

/-- Mantissa from integer digits and fraction digits. -/
def mantissaOf (ip fp : List Char) : JsNum :=
  ⟨(digitsToNat ip) * 10 ^ fp.length + digitsToNat fp, 10 ^ fp.length⟩

/-- Scale by `10 ^ e` for a signed exponent. -/
def jsPow10 (a : JsNum) (sgn : Bool) (e : Nat) : JsNum :=
  if sgn then ⟨a.n * 10 ^ e, a.d⟩ else ⟨a.n, a.d * 10 ^ e⟩

/-- Model of `parseFloat(v)` combined with the `isFinite` check the sources
always pair it with: `none` for `NaN` and for `Infinity`, otherwise the exact
value of the longest numeric prefix (optional sign, digits, optional
fraction, optional exponent). -/
def jsParseFloat (l : List Char) : Option JsNum :=
  let l1 := l.dropWhile jsSpace
  let signNeg : Bool := match l1 with
    | '-' :: _ => true
    | _ => false
  let l2 := match l1 with
    | '-' :: r => r
    | '+' :: r => r
    | _ => l1
  let ip := l2.takeWhile Char.isDigit
  let l3 := l2.dropWhile Char.isDigit
  let fp := match l3 with
    | '.' :: r => r.takeWhile Char.isDigit
    | _ => []
  let l4 := match l3 with
    | '.' :: r => r.dropWhile Char.isDigit
    | _ => l3
  if ip = [] ∧ fp = [] then none
  else
    let m := mantissaOf ip fp
    let m := if signNeg then m.neg else m
    match l4 with
    | 'e' :: r =>
      match r with
      | '-' :: r2 =>
        let ed := r2.takeWhile Char.isDigit
        if ed = [] then some m else some (jsPow10 m false (digitsToNat ed))
      | '+' :: r2 =>
        let ed := r2.takeWhile Char.isDigit
        if ed = [] then some m else some (jsPow10 m true (digitsToNat ed))
      | _ =>
        let ed := r.takeWhile Char.isDigit
        if ed = [] then some m else some (jsPow10 m true (digitsToNat ed))
    | 'E' :: r =>
      match r with
      | '-' :: r2 =>
        let ed := r2.takeWhile Char.isDigit
        if ed = [] then some m else some (jsPow10 m false (digitsToNat ed))
      | '+' :: r2 =>
        let ed := r2.takeWhile Char.isDigit
        if ed = [] then some m else some (jsPow10 m true (digitsToNat ed))
      | _ =>
        let ed := r.takeWhile Char.isDigit
        if ed = [] then some m else some (jsPow10 m true (digitsToNat ed))
    | _ => some m

/-- Model of `Number(t)` on a cleaned cell (whole string must match the
numeric grammar; `none` models `NaN`).  After cleaning, only the characters
`0-9 . + - e E` can remain, so this restricted grammar is exhaustive. -/
def jsStrictNumber (l : List Char) : Option JsNum :=
  let signNeg : Bool := match l with
    | '-' :: _ => true
    | _ => false
  let l2 := match l with
    | '-' :: r => r
    | '+' :: r => r
    | _ => l
  let ip := l2.takeWhile Char.isDigit
  let l3 := l2.dropWhile Char.isDigit
  let fp := match l3 with
    | '.' :: r => r.takeWhile Char.isDigit
    | _ => []
  let l4 := match l3 with
    | '.' :: r => r.dropWhile Char.isDigit
    | _ => l3
  if ip = [] ∧ fp = [] then none
  else
    let m := mantissaOf ip fp
    let m := if signNeg then m.neg else m
    match l4 with
    | [] => some m
    | 'e' :: r =>
      let esgnNeg : Bool := match r with
        | '-' :: _ => true
        | _ => false
      let r2 := match r with
        | '-' :: rr => rr
        | '+' :: rr => rr
        | _ => r
      let ed := r2.takeWhile Char.isDigit
      if ed = [] ∨ r2.dropWhile Char.isDigit ≠ [] then none
      else some (jsPow10 m (!esgnNeg) (digitsToNat ed))
    | 'E' :: r =>
      let esgnNeg : Bool := match r with
        | '-' :: _ => true
        | _ => false
      let r2 := match r with
        | '-' :: rr => rr
        | '+' :: rr => rr
        | _ => r
      let ed := r2.takeWhile Char.isDigit
      if ed = [] ∨ r2.dropWhile Char.isDigit ≠ [] then none
      else some (jsPow10 m (!esgnNeg) (digitsToNat ed))
    | _ => none

/-- Leftmost-to-right extraction of every global-regex match of an optional
minus sign, digits, and an optional decimal fraction — as used by the
free-text fallbacks; the fuel is the input length, which over-approximates
the number of scanning steps. -/
def findAllNumbersAux : Nat → List Char → List JsNum
  | 0, _ => []
  | _, [] => []
  | fuel + 1, '-' :: r =>
    match r with
    | c :: _ =>
      if c.isDigit then
        let ip := r.takeWhile Char.isDigit
        let r2 := r.dropWhile Char.isDigit
        match r2 with
        | '.' :: r3 =>
          let fp := r3.takeWhile Char.isDigit
          if fp = [] then (mantissaOf ip []).neg :: findAllNumbersAux fuel r2
          else (mantissaOf ip fp).neg :: findAllNumbersAux fuel (r3.dropWhile Char.isDigit)
        | _ => (mantissaOf ip []).neg :: findAllNumbersAux fuel r2
      else findAllNumbersAux fuel r
    | [] => []
  | fuel + 1, c :: r =>
    if c.isDigit then
      let ip := (c :: r).takeWhile Char.isDigit
      let r2 := (c :: r).dropWhile Char.isDigit
      match r2 with
      | '.' :: r3 =>
        let fp := r3.takeWhile Char.isDigit
        if fp = [] then mantissaOf ip [] :: findAllNumbersAux fuel r2
        else mantissaOf ip fp :: findAllNumbersAux fuel (r3.dropWhile Char.isDigit)
      | _ => mantissaOf ip [] :: findAllNumbersAux fuel r2
    else findAllNumbersAux fuel r

def findAllNumbers (l : List Char) : List JsNum := findAllNumbersAux l.length l

/-! ## `data-processor.js`: `processCSV` (the tabular decoder of `solver-llm.js`) -/

/-- A filter object `{operator, value}` as built by the JavaScript code; the
operator is kept as the raw string the code compares against. -/
structure JFilter where
  operator : String
  value : JsNum
deriving DecidableEq, Repr

/-- `processCSV`: `csvContent.split('\n').filter(l => l.trim())`. -/
def nonEmptyLines (csv : List Char) : List (List Char) :=
  (splitOnChar '\n' csv).filter (fun l => jsTrim l ≠ [])

/-- `processCSV`: trimmed fields of the first (non-empty) line. -/
def firstValues (csv : List Char) : List (List Char) :=
  (splitOnChar ',' ((nonEmptyLines csv).headD [])).map jsTrim

/-- `processCSV`: how many first-line fields parse as finite numbers. -/
def numericCount (csv : List Char) : Nat :=
  (firstValues csv).countP (fun v => (jsParseFloat v).isSome)

/-- `processCSV`: headerless iff the numeric fraction of the first line
exceeds the 0.8 threshold (`numericCount / firstValues.length > 0.8`). -/
def isHeaderless (csv : List Char) : Bool :=
  jsLt ⟨8, 10⟩ ((jsOfNat (numericCount csv)).div (jsOfNat (firstValues csv).length))

/-- Synthetic positional column name `col0`, `col1`, … of `processCSV`. -/
def colName (i : Nat) : List Char := cs ("col" ++ toString i)

/-- `processCSV`, headerless branch: one line becomes one row keyed by the
synthetic positional column names. -/
def headerlessRow (line : List Char) : List (List Char × List Char) :=
  (((splitOnChar ',' line).map jsTrim).enum).map (fun p => (colName p.1, p.2))

/-- Modelled from the spec: the external `csv-parser` collaborator
("tabular-file-to-rows decoding, treated as pure format converters").  The
first line supplies the column names; each later non-empty line becomes a row
of (name, value) pairs in column order. -/
def parseCsvModel (text : List Char) :
    List (List Char) × List (List (List Char × List Char)) :=
  match (splitOnChar '\n' text).map (fun l => if l.getLast? = some '\r' then l.dropLast else l) with
  | [] => ([], [])
  | h :: rest =>
    let headers := splitOnChar ',' h
    (headers, (rest.filter (fun l => l ≠ [])).map (fun line => headers.zip (splitOnChar ',' line)))

/-- `processCSV`: the rows produced for the given content — all lines as data
with synthetic column names when headerless, otherwise the `csv-parser`
(modelled) output on the raw content. -/
def processCSVRows (csv : List Char) : List (List (List Char × List Char)) :=
  if isHeaderless csv then (nonEmptyLines csv).map headerlessRow
  else (parseCsvModel csv).2

/-- First value stored under a key of a row object. -/
def lookupCell (row : List (List Char × List Char)) (key : List Char) : Option (List Char) :=
  match row with
  | [] => none
  | (k, v) :: r => if k = key then some v else lookupCell r key

/-- `processCSV`: numbers extracted from one row — the target column if one
was requested, else every column, each cell through `parseFloat`+`isFinite`. -/
def rowNumbers (row : List (List Char × List Char)) (targetColumn : Option (List Char)) :
    List JsNum :=
  match targetColumn with
  | some t => ((lookupCell row t).bind jsParseFloat).toList
  | none => row.filterMap (fun p => jsParseFloat p.2)

/-- `processCSV`: all numbers extracted from the rows. -/
def allNumbersOf (rows : List (List (List Char × List Char)))
    (targetColumn : Option (List Char)) : List JsNum :=
  rows.foldr (fun row acc => rowNumbers row targetColumn ++ acc) []

/-- `processCSV`: the filter step.  Only the five listed operator strings are
recognised; any other operator leaves the list unfiltered. -/
def processCSVFilter (allNumbers : List JsNum) (filter : Option JFilter) : List JsNum :=
  match filter with
  | none => allNumbers
  | some f =>
    if f.operator = "<" then allNumbers.filter (fun n => jsLt n f.value)
    else if f.operator = ">" then allNumbers.filter (fun n => jsLt f.value n)
    else if f.operator = "<=" then allNumbers.filter (fun n => jsLe n f.value)
    else if f.operator = ">=" then allNumbers.filter (fun n => jsLe f.value n)
    else if f.operator = "==" then allNumbers.filter (fun n => jsEq n f.value)
    else allNumbers

/-- `processCSV`: the summary sum for the given operations. -/
def processCSVSum (csv : List Char) (filter : Option JFilter)
    (targetColumn : Option (List Char)) : JsNum :=
  jsSum (processCSVFilter (allNumbersOf (processCSVRows csv) targetColumn) filter)

/-! ## `data-processor.js`: `sumNumbersWithCondition` -/

/-- The operator alternation of the condition regex (a `<` or `>` with an
optional `=`, then `==`, then `!=`); first characters are pairwise distinct,
so this candidate order realises the JavaScript backtracking order. -/
def condAlts : List (List Char × String) :=
  [(cs "<=", "<="), (cs "<", "<"), (cs ">=", ">="), (cs ">", ">"),
   (cs "==", "=="), (cs "!=", "!=")]

/-- `sumNumbersWithCondition(numbers, condition)`: parse the first operator
and threshold out of the condition text and sum the matching numbers; with no
condition or no match, sum everything.  Note this switch, unlike the filter
step of `processCSV`, does implement the `!=` operator. -/
def sumNumbersWithCondition (numbers : List JsNum) (condition : List Char) : JsNum :=
  if condition = [] then jsSum numbers
  else
    match scanTok condAlts condition with
    | none => jsSum numbers
    | some (op, v) =>
      let threshold := jsOfNat v
      if op = "<" then jsSum (numbers.filter (fun n => jsLt n threshold))
      else if op = "<=" then jsSum (numbers.filter (fun n => jsLe n threshold))
      else if op = ">" then jsSum (numbers.filter (fun n => jsLt threshold n))
      else if op = ">=" then jsSum (numbers.filter (fun n => jsLe threshold n))
      else if op = "==" then jsSum (numbers.filter (fun n => jsEq n threshold))
      else if op = "!=" then jsSum (numbers.filter (fun n => !(jsEq n threshold)))
      else jsSum numbers

/-! ## Legacy `solver.js` (second half of `data-processor.js`):
`cleanNumberString` and `sumCsvColumnEnhanced` -/

/-- `cleanNumberString(s)`: trim; a parenthesised value becomes negated;
strip currency symbols and whitespace, thousands separators, percent signs
and surrounding quotes; drop every remaining non-numeric character; reject
the degenerate leftovers; finally `Number(t)` with a finiteness check. -/
def cleanNumberString (s : List Char) : Option JsNum :=
  let t := jsTrim s
  if t = [] then none
  else
    let t := match t with
      | '(' :: r => if r.getLast? = some ')' then '-' :: r.dropLast else t
      | _ => t
    let t := t.filter (fun c =>
      !(c = '$' ∨ c = '€' ∨ c = '£' ∨ c = '¥' ∨ c = '₹' ∨ jsSpace c))
    let t := t.filter (fun c => c ≠ ',')
    let t := t.filter (fun c => c ≠ '%')
    let t := match t with
      | '"' :: r => if r.length ≥ 2 ∧ r.getLast? = some '"' then r.dropLast else t
      | _ => t
    let t := t.filter (fun c =>
      c.isDigit ∨ c = '.' ∨ c = '-' ∨ c = '+' ∨ c = 'e' ∨ c = 'E')
    if t = [] ∨ t = ['.'] ∨ t = ['-'] ∨ t = ['+'] then none
    else jsStrictNumber t

/-- Per-column accumulator of `sumCsvColumnEnhanced`'s streaming pass. -/
structure ColAcc where
  total : Nat
  hits : Nat
  sum : JsNum
deriving DecidableEq, Repr

def ColAcc.init : ColAcc := ⟨0, 0, jsZero⟩

/-- The cutoff test of the data handler: `cutoff === null || v < cutoff`. -/
def cutoffOk (cutoff : Option JsNum) (v : JsNum) : Bool :=
  match cutoff with
  | none => true
  | some c => jsLt v c

/-- The body of `parser.on('data')` for a single cell: skip blank cells,
count the non-empty ones, and accumulate a cleaned value only when it exists
and passes the cutoff — a cell that fails cleaning is excluded, never zero. -/
def stepCell (cutoff : Option JsNum) (acc : ColAcc) (raw : List Char) : ColAcc :=
  if jsTrim raw = [] then acc
  else
    let acc := { acc with total := acc.total + 1 }
    match cleanNumberString raw with
    | some v =>
      if cutoffOk cutoff v then
        { acc with hits := acc.hits + 1, sum := acc.sum.add v }
      else acc
    | none => acc

/-- The accumulator a single column reaches after its cells streamed by. -/
def colAccOf (raws : List (List Char)) (cutoff : Option JsNum) : ColAcc :=
  raws.foldl (stepCell cutoff) ColAcc.init

/-- Update the accumulator stored under a column name. -/
def updateAssoc (cols : List (List Char × ColAcc)) (key : List Char)
    (f : ColAcc → ColAcc) : List (List Char × ColAcc) :=
  match cols with
  | [] => []
  | (k, a) :: r => if k = key then (k, f a) :: r else (k, a) :: updateAssoc r key f

/-- Process one parsed row: every (column, cell) pair through `stepCell`. -/
def foldRowCells (cutoff : Option JsNum) (cols : List (List Char × ColAcc))
    (row : List (List Char × List Char)) : List (List Char × ColAcc) :=
  row.foldl (fun cols2 cell => updateAssoc cols2 cell.1 (fun a => stepCell cutoff a cell.2)) cols

/-- The streaming pass: initialise one accumulator per header (the
`parser.on('headers')` handler), then fold every row. -/
def runColumns (headers : List (List Char))
    (rows : List (List (List Char × List Char))) (cutoff : Option JsNum) :
    List (List Char × ColAcc) :=
  rows.foldl (foldRowCells cutoff) (headers.map (fun h => (h, ColAcc.init)))

/-- The header-priority regex of `sumCsvColumnEnhanced` (word-boundary match
against a value/amount/total-like token set, case-insensitive). -/
def headerPriorityTest (name : List Char) : Bool :=
  let low := toLowerList name
  [cs "value", cs "amount", cs "price", cs "total", cs "sum", cs "count",
   cs "qty", cs "quantity", cs "score", cs "points", cs "number"].any
    (fun tok => containsWordFrom tok false low)

/-- Column score: `headerPriority*1000 + hitRatio*100 + numericHits`. -/
def scoreOf (col : List Char × ColAcc) : JsNum :=
  let hitRatio :=
    if col.2.total > 0 then (jsOfNat col.2.hits).div (jsOfNat col.2.total) else jsZero
  (((if headerPriorityTest col.1 then jsOfNat 1 else jsZero).mul (jsOfNat 1000)).add
    (hitRatio.mul (jsOfNat 100))).add (jsOfNat col.2.hits)

/-- `scored.sort(desc)[0]` with a stable sort: the first column whose score
no later column strictly beats. -/
def selectBest (cols : List (List Char × ColAcc)) : Option (List Char × ColAcc) :=
  cols.foldl
    (fun best x =>
      match best with
      | none => some x
      | some b => if jsLt (scoreOf b) (scoreOf x) then some x else best)
    none

/-- Strict per-field numeric test of the headerless detection in
`sumCsvColumnEnhanced` (whitespace, optional minus, digits, optional
fraction, whitespace — the whole field). -/
def strictNumericField (f : List Char) : Bool :=
  let t := f.dropWhile jsSpace
  let t2 := match t with
    | '-' :: r => r
    | _ => t
  let ds := t2.takeWhile Char.isDigit
  let t3 := t2.dropWhile Char.isDigit
  let t4 := match t3 with
    | '.' :: r => if r.takeWhile Char.isDigit = [] then t3 else r.dropWhile Char.isDigit
    | _ => t3
  ds ≠ [] && t4.dropWhile jsSpace = []

/-- First line of the raw text (split on a possibly CR-terminated newline). -/
def firstLineOf (text : List Char) : List Char :=
  let l := (splitOnChar '\n' text).headD []
  if l.getLast? = some '\r' then l.dropLast else l

/-- Fields of the first line, for the headerless detection. -/
def firstColsOf (text : List Char) : List (List Char) :=
  splitOnChar ',' (firstLineOf text)

/-- `sumCsvColumnEnhanced`'s headerless test: more than 60% of the first
line's fields are strictly numeric. -/
def csvHeaderlessDetect (text : List Char) : Bool :=
  let firstCols := firstColsOf text
  let numericCols := firstCols.countP strictNumericField
  decide (firstCols.length > 0) &&
    jsLt ⟨6, 10⟩ ((jsOfNat numericCols).div (jsOfNat firstCols.length))

/-- The synthetic header `col1,col2,…` prepended when headerless (note the
1-based names, unlike `processCSV`'s 0-based `col0…`). -/
def synthHeaderLine (text : List Char) : List Char :=
  match (firstColsOf text).enum.map (fun p => cs ("col" ++ toString (p.1 + 1))) with
  | [] => []
  | h :: t => t.foldl (fun acc name => acc ++ ',' :: name) h

/-- The text `sumCsvColumnEnhanced` actually parses: the original bytes,
with a synthetic header line prepended when the content looks headerless. -/
def rebuiltText (text : List Char) : List Char :=
  if csvHeaderlessDetect text then synthHeaderLine text ++ '\n' :: text else text

/-- The free-text fallback of `sumCsvColumnEnhanced` (and `sumNumbersInText`):
every numeric substring, individually filtered by `< cutoff`, summed. -/
def fallbackTextSum (text : List Char) (cutoff : Option JsNum) : JsNum :=
  jsSum ((findAllNumbers text).filter (cutoffOk cutoff))

/-- `sumCsvColumnEnhanced(buffer, cutoff)`: rebuild the text if headerless,
stream it through the per-column accumulators, score the columns, and answer
with the best column's sum — falling back to a whole-text numeric scan when
no column had a numeric hit. -/
def sumCsvColumnEnhanced (text : List Char) (cutoff : Option JsNum) : JsNum :=
  let text := rebuiltText text
  let parsed := parseCsvModel text
  let cols := runColumns parsed.1 parsed.2 cutoff
  match selectBest cols with
  | none => fallbackTextSum text cutoff
  | some best => if best.2.hits > 0 then best.2.sum else fallbackTextSum text cutoff

/-- `extractCutoffFromText`: leftmost case-insensitive `Cutoff:` label
followed by digits. -/
def extractCutoffFromText (text : List Char) : Option Nat :=
  (scanTok [(cs "cutoff:", ())] (toLowerList text)).map (fun p => p.2)

/-! ## Legacy `solver.js`: the submission-boundary answer normalisation -/

/-- A JavaScript value as far as the answer plumbing cares: `null` (also
covering `undefined`), a string, or a number. -/
inductive JSVal where
  | null : JSVal
  | str : List Char → JSVal
  | num : JsNum → JSVal
deriving DecidableEq, Repr

/-- `ensureNonEmptyAnswer(answer, fallback)`: `null`/`undefined` and
blank strings become the fallback sentinel; the number `0` becomes the
non-empty string `"0"`; anything else passes through. -/
def ensureNonEmptyAnswer (answer fallback : JSVal) : JSVal :=
  match answer with
  | JSVal.null => fallback
  | JSVal.str s => if jsTrim s = [] then fallback else JSVal.str s
  | JSVal.num q => if jsEq q jsZero then JSVal.str (cs "0") else JSVal.num q

/-- The submission protocol's notion of a usable answer: present and, if a
string, non-blank. -/
def answerPresent : JSVal → Bool
  | JSVal.null => false
  | JSVal.str s => jsTrim s ≠ []
  | JSVal.num _ => true

/-! ## `audio-transcriber.js`: `parseAudioInstructions` -/

/-- The instruction record built from a transcript. -/
structure AudioInstr where
  rawText : List Char
  operation : Option String
  filter : Option JFilter
  target : Option String
deriving DecidableEq, Repr

/-- Operation detection: the `if`/`else if` chain of substring tests. -/
def extractOperation (low : List Char) : Option String :=
  if containsSub (cs "sum") low || containsSub (cs "add") low ||
     containsSub (cs "total") low || containsSub (cs "aggregate") low then some "sum"
  else if containsSub (cs "count") low || containsSub (cs "number of") low then some "count"
  else if containsSub (cs "average") low || containsSub (cs "mean") low then some "average"
  else if containsSub (cs "maximum") low || containsSub (cs "max") low ||
     containsSub (cs "highest") low then some "max"
  else if containsSub (cs "minimum") low || containsSub (cs "min") low ||
     containsSub (cs "lowest") low then some "min"
  else none

/-- `>=` family test: `greater than or equal`, `>=`, or `at least` occurs. -/
def geTest (low : List Char) : Bool :=
  containsSub (cs "greater than or equal") low || containsSub (cs ">=") low ||
    containsSub (cs "at least") low

/-- Alternatives of the `>=` capture regex, in backtracking order (the
optional `o` of `to?` is expanded into two literals). -/
def geAlts : List (List Char × Unit) :=
  [(cs "greater than or equal to", ()), (cs "greater than or equal t", ()),
   (cs ">=", ()), (cs "at least", ())]

def leTest (low : List Char) : Bool :=
  containsSub (cs "less than or equal") low || containsSub (cs "<=") low ||
    containsSub (cs "at most") low

def leAlts : List (List Char × Unit) :=
  [(cs "less than or equal to", ()), (cs "less than or equal t", ()),
   (cs "<=", ()), (cs "at most", ())]

def gtTest (low : List Char) : Bool :=
  containsSub (cs "greater than") low || containsSub (cs ">") low

def gtAlts : List (List Char × Unit) := [(cs "greater than", ()), (cs ">", ())]

def ltTest (low : List Char) : Bool :=
  containsSub (cs "less than") low || containsSub (cs "below") low ||
    containsSub (cs "<") low

def ltAlts : List (List Char × Unit) := [(cs "less than", ()), (cs "below", ()), (cs "<", ())]

/-- Filter detection: the four `else if` branches, in the fixed precedence
order `>=`/`at least` → `<=`/`at most` → `>` → `<`; a branch whose test
passes but whose capture fails leaves the filter unset. -/
def extractAudioFilter (low : List Char) : Option JFilter :=
  if geTest low then
    (scanTok geAlts low).map (fun p => ⟨">=", jsOfNat p.2⟩)
  else if leTest low then
    (scanTok leAlts low).map (fun p => ⟨"<=", jsOfNat p.2⟩)
  else if gtTest low then
    (scanTok gtAlts low).map (fun p => ⟨">", jsOfNat p.2⟩)
  else if ltTest low then
    (scanTok ltAlts low).map (fun p => ⟨"<", jsOfNat p.2⟩)
  else none

/-- Target detection: `first column`, else `all column(s)`/`every column`. -/
def extractTarget (low : List Char) : Option String :=
  if containsSub (cs "first column") low then some "first_column"
  else if containsSub (cs "all column") low || containsSub (cs "every column") low then
    some "all_columns"
  else none

/-- `parseAudioInstructions(transcript)`: `null` for a missing/empty
transcript, otherwise an instruction record whose fields come from the
case-insensitive keyword scans above. -/
def parseAudioInstructions (transcript : List Char) : Option AudioInstr :=
  if transcript = [] then none
  else
    let low := toLowerList transcript
    some ⟨transcript, extractOperation low, extractAudioFilter low, extractTarget low⟩

/-! ## `solver-llm.js`: instruction merge and answer cleaning -/

/-- The page-conditions fallback of `solveSinglePage`: the first digit run of
the LLM `CONDITIONS` line, always with operator `>=`. -/
def pageConditionFilter (conditions : List Char) : Option JFilter :=
  (firstDigitRun conditions).map (fun n => ⟨">=", jsOfNat n⟩)

/-- The filter actually passed to `processCSV`: the audio instruction's
filter when one exists, else the page-conditions fallback. -/
def mergedFilterCondition (audio : Option AudioInstr) (conditions : List Char) :
    Option JFilter :=
  match audio with
  | some ai =>
    match ai.filter with
    | some f => some f
    | none => pageConditionFilter conditions
  | none => pageConditionFilter conditions

/-- The target column passed to `processCSV`: `col0` exactly when the audio
instruction targets the first column. -/
def mergedTargetColumn (audio : Option AudioInstr) : Option (List Char) :=
  match audio with
  | some ai => if ai.target = some "first_column" then some (cs "col0") else none
  | none => none

/-- Strip the leading `Answer:`/`Final Answer:`/`Result:` label (and the
whitespace after it), case-insensitively, preserving the rest verbatim. -/
def stripAnswerLabel (s : List Char) : List Char :=
  let low := toLowerList s
  if listPrefixOf (cs "answer:") low then (s.drop 7).dropWhile jsSpace
  else if listPrefixOf (cs "final answer:") low then (s.drop 13).dropWhile jsSpace
  else if listPrefixOf (cs "result:") low then (s.drop 7).dropWhile jsSpace
  else s

/-- Shape test for `/^\d+\.\d+$/`. -/
def decimalShape (s : List Char) : Bool :=
  let a := s.takeWhile Char.isDigit
  match s.dropWhile Char.isDigit with
  | '.' :: b => a ≠ [] && b ≠ [] && b.all Char.isDigit
  | _ => false

/-- The LLM-answer cleaning chain of `solveSinglePage` (`solver-llm.js`):
keep the last non-blank line, strip the answer label and quote characters,
and coerce an all-digits or digits-dot-digits string to a number.  Note that
nothing here replaces an empty result by a sentinel. -/
def cleanupLLMAnswer (answer0 : List Char) : JSVal :=
  let lines := (splitOnChar '\n' answer0).filter (fun l => jsTrim l ≠ [])
  let answer1 := match lines.getLast? with
    | some l => jsTrim l
    | none => answer0
  let answer2 := jsTrim (stripAnswerLabel answer1)
  let answer3 := jsTrim (answer2.filter (fun c =>
    ¬(c = Char.ofNat 96 ∨ c = Char.ofNat 39 ∨ c = Char.ofNat 34)))
  if answer3 ≠ [] ∧ answer3.all Char.isDigit then JSVal.num (jsOfNat (digitsToNat answer3))
  else if decimalShape answer3 then
    JSVal.num (mantissaOf (answer3.takeWhile Char.isDigit)
      (((answer3.dropWhile Char.isDigit).drop 1).takeWhile Char.isDigit))
  else JSVal.str answer3

/-- The answer `solveSinglePage` (`solver-llm.js`) returns for submission:
the computed CSV sum when one exists and the conditions mention `cutoff`,
else the cleaned LLM response — with no sentinel substitution anywhere. -/
def llmAnswerAtBoundary (answerResponse : List Char) (csvSum : Option JsNum)
    (conditions : List Char) : JSVal :=
  let answer := jsTrim answerResponse
  match csvSum with
  | some s =>
    if containsSub (cs "cutoff") (toLowerList conditions) then JSVal.num s
    else cleanupLLMAnswer answer
  | none => cleanupLLMAnswer answer

/-! ## `solver-llm.js`: the retry loop and the session loop

The I/O of one attempt is summarised by a `Script`: attempt number ↦ (answer
the resolution pipeline produced, response the submission endpoint returned).
The model covers the paths on which every submission yields a response (the
transport-failure `catch` paths are outside it). -/

/-- `MAX_RETRIES_PER_TASK` of `solver-llm.js`. -/
def MAX_RETRIES_PER_TASK : Nat := 3

/-- `TIMEOUT_MS = 2.5 * 60 * 1000` of `solver-llm.js` (milliseconds). -/
def TIMEOUT_MS : Nat := 150000

/-- A submission response: `correct === true`?, and the optional next URL. -/
structure SubmitResp where
  correct : Bool
  url : Option String
deriving DecidableEq, Repr

/-- The scripted behaviour of one task: what attempt `k` resolves and what
the server answers. -/
def Script (α : Type) : Type := Nat → α × SubmitResp

/-- How the per-task retry loop exits. -/
inductive TaskExit (α : Type) where
  | correctNext : String → TaskExit α
  | correctDone : TaskExit α
  | dupAdvance : String → TaskExit α
  | dupStop : TaskExit α
  | maxAdvance : String → TaskExit α
  | exhausted : TaskExit α
deriving DecidableEq, Repr

/-- The retry loop of `solveQuiz` (`solver-llm.js`) from a given attempt with
`left + 1` attempts still allowed (`left = 0` means the current attempt is
attempt `MAX_RETRIES_PER_TASK`) and the previously submitted answers; returns
the exit and the number of attempts performed.  A correct response advances
or finishes; an incorrect response whose answer was already attempted
(`previousAnswers.includes(JSON.stringify(answer))`, modelled by structural
equality) advances when a next URL exists and otherwise stops the session;
an incorrect novel answer at the last attempt advances when a next URL
exists; otherwise the loop retries, and exhausts after the last attempt. -/
def runTaskAux {α : Type} [DecidableEq α] (script : Script α) :
    Nat → Nat → List α → TaskExit α × Nat
  | _, 0, _ => (TaskExit.exhausted, 0)
  | attempt, left + 1, prev =>
    let ar := script attempt
    if ar.2.correct then
      match ar.2.url with
      | some u => (TaskExit.correctNext u, 1)
      | none => (TaskExit.correctDone, 1)
    else if ar.1 ∈ prev then
      match ar.2.url with
      | some u => (TaskExit.dupAdvance u, 1)
      | none => (TaskExit.dupStop, 1)
    else
      match ar.2.url with
      | some u =>
        if left = 0 then (TaskExit.maxAdvance u, 1)
        else
          let r := runTaskAux script (attempt + 1) left (ar.1 :: prev)
          (r.1, r.2 + 1)
      | none =>
        let r := runTaskAux script (attempt + 1) left (ar.1 :: prev)
        (r.1, r.2 + 1)

/-- One whole task: attempts start at 1 with an empty answer history. -/
def runTask {α : Type} [DecidableEq α] (script : Script α) : TaskExit α × Nat :=
  runTaskAux script 1 MAX_RETRIES_PER_TASK []

/-- The outer session loop of `solveQuiz` (`solver-llm.js`): before each
task it requires a current URL, an elapsed time below `TIMEOUT_MS` and a task
count below 20; the task's exit then determines the next URL (`exhausted`
leaves the URL unchanged).  `time tc` is the elapsed wall-clock time observed
at the check before task `tc`; the result is the number of tasks processed.
The fuel only pads the recursion: it is kept at `20 - taskCount`, so the
ceiling check always fires first. -/
def sessionAux {α : Type} [DecidableEq α] (oracle : Nat → Script α)
    (time : Nat → Nat) : Nat → Nat → Option String → Nat
  | fuel, tc, cur =>
    match cur with
    | none => tc
    | some u =>
      if TIMEOUT_MS ≤ time tc then tc
      else if 20 ≤ tc then tc
      else
        match fuel with
        | 0 => tc
        | fuel + 1 =>
          match (runTask (oracle tc)).1 with
          | TaskExit.correctNext u2 => sessionAux oracle time fuel (tc + 1) (some u2)
          | TaskExit.correctDone => sessionAux oracle time fuel (tc + 1) none
          | TaskExit.dupAdvance u2 => sessionAux oracle time fuel (tc + 1) (some u2)
          | TaskExit.dupStop => sessionAux oracle time fuel (tc + 1) none
          | TaskExit.maxAdvance u2 => sessionAux oracle time fuel (tc + 1) (some u2)
          | TaskExit.exhausted => sessionAux oracle time fuel (tc + 1) (some u)

/-- Number of tasks a session processes from its starting URL. -/
def sessionCount {α : Type} [DecidableEq α] (oracle : Nat → Script α)
    (time : Nat → Nat) (u0 : Option String) : Nat :=
  sessionAux oracle time 20 0 u0

/-! ## Supporting lemmas -/

theorem listPrefixOf_iff {p s : List Char} :
    listPrefixOf p s = true ↔ ∃ r, s = p ++ r := by
  induction p generalizing s with
  | nil => simp [listPrefixOf]
  | cons a p ih =>
    cases s with
    | nil => simp [listPrefixOf]
    | cons b s =>
      simp only [listPrefixOf, Bool.and_eq_true, decide_eq_true_eq, ih]
      constructor
      · rintro ⟨rfl, r, rfl⟩
        exact ⟨r, rfl⟩
      · rintro ⟨r, hr⟩
        injection hr with h1 h2
        exact ⟨h1.symm, r, h2⟩

theorem containsSub_iff {p s : List Char} :
    containsSub p s = true ↔ ∃ a b, s = a ++ (p ++ b) := by
  induction s with
  | nil =>
    simp only [containsSub, listPrefixOf_iff]
    constructor
    · rintro ⟨r, hr⟩
      exact ⟨[], r, hr⟩
    · rintro ⟨a, b, h⟩
      cases a with
      | nil => exact ⟨b, h⟩
      | cons x xs => simp at h
  | cons c r ih =>
    simp only [containsSub, Bool.or_eq_true, listPrefixOf_iff, ih]
    constructor
    · rintro (⟨t, ht⟩ | ⟨a, b, hab⟩)
      · exact ⟨[], t, ht⟩
      · exact ⟨c :: a, b, by simp [hab]⟩
    · rintro ⟨a, b, hab⟩
      cases a with
      | nil => exact Or.inl ⟨b, hab⟩
      | cons x xs =>
        injection hab with h1 h2
        exact Or.inr ⟨xs, b, h2⟩

theorem scanTok_none_suffix {α : Type} {alts : List (List Char × α)} :
    ∀ (a b : List Char), scanTok alts (a ++ b) = none → tryTokAt alts b = none := by
  intro a
  induction a with
  | nil =>
    intro b h
    cases b with
    | nil => exact h
    | cons c r =>
      have h2 : (match tryTokAt alts (c :: r) with
        | some x => some x
        | none => scanTok alts r) = none := h
      cases ht : tryTokAt alts (c :: r) with
      | none => rfl
      | some x => rw [ht] at h2; exact absurd h2 (by simp)
  | cons c a ih =>
    intro b h
    have h2 : (match tryTokAt alts (c :: (a ++ b)) with
      | some x => some x
      | none => scanTok alts (a ++ b)) = none := h
    cases ht : tryTokAt alts (c :: (a ++ b)) with
    | some x => rw [ht] at h2; exact absurd h2 (by simp)
    | none => rw [ht] at h2; exact ih b h2

theorem tryTokAt_ne_none_of_mem {α : Type} {alts : List (List Char × α)}
    {p : List Char} {tag : α} {b : List Char} (hmem : (p, tag) ∈ alts)
    (hmatch : matchOpAt p b ≠ none) : tryTokAt alts b ≠ none := by
  induction alts with
  | nil => simp at hmem
  | cons hd tl ih =>
    simp only [tryTokAt]
    cases hm : matchOpAt hd.1 b with
    | some v => simp
    | none =>
      rcases List.mem_cons.mp hmem with heq | htl
      · exact absurd hm (by rw [← heq] at hm ⊢; exact hmatch)
      · exact ih htl

theorem matchOpAt_atLeast10 (rest : List Char) :
    matchOpAt (cs "at least") (cs "at least 10" ++ rest) ≠ none := by
  have hsplit : cs "at least 10" ++ rest = cs "at least" ++ (' ' :: '1' :: '0' :: rest) := rfl
  rw [hsplit]
  have hpre : listPrefixOf (cs "at least") (cs "at least" ++ (' ' :: '1' :: '0' :: rest)) = true :=
    listPrefixOf_iff.mpr ⟨' ' :: '1' :: '0' :: rest, rfl⟩
  have hdrop : (cs "at least" ++ (' ' :: '1' :: '0' :: rest)).drop (cs "at least").length =
      ' ' :: '1' :: '0' :: rest := List.drop_left _ _
  have hws : (' ' :: '1' :: '0' :: rest).dropWhile jsSpace = '1' :: '0' :: rest := rfl
  simp only [matchOpAt, hpre, if_true, hdrop, hws]
  have htake : ('1' :: '0' :: rest).takeWhile Char.isDigit =
      '1' :: '0' :: rest.takeWhile Char.isDigit := rfl
  rw [htake]
  simp

theorem cleanNumberString_of_trim_empty {raw : List Char} (h : jsTrim raw = []) :
    cleanNumberString raw = none := by
  simp [cleanNumberString, h]

theorem stepCell_of_clean_none {co : Option JsNum} {acc : ColAcc} {raw : List Char}
    (h : cleanNumberString raw = none) :
    (stepCell co acc raw).sum = acc.sum ∧ (stepCell co acc raw).hits = acc.hits := by
  unfold stepCell
  by_cases ht : jsTrim raw = []
  · simp [ht]
  · simp [ht, h]

theorem colAcc_fold_sum (co : Option JsNum) :
    ∀ (raws : List (List Char)) (acc : ColAcc),
      (raws.foldl (stepCell co) acc).sum =
        ((raws.filterMap cleanNumberString).filter (cutoffOk co)).foldl JsNum.add acc.sum := by
  intro raws
  induction raws with
  | nil => intro acc; rfl
  | cons raw rest ih =>
    intro acc
    rw [List.foldl_cons, ih, List.filterMap_cons]
    cases hc : cleanNumberString raw with
    | none =>
      rw [(stepCell_of_clean_none hc).1]
    | some v =>
      have htrim : jsTrim raw ≠ [] := by
        intro ht
        rw [cleanNumberString_of_trim_empty ht] at hc
        exact absurd hc (by simp)
      by_cases hcut : cutoffOk co v = true
      · simp only [List.filter_cons, hcut, if_true, List.foldl_cons]
        have : (stepCell co acc raw).sum = acc.sum.add v := by
          simp [stepCell, htrim, hc, hcut]
        rw [this]
      · have hstep : (stepCell co acc raw).sum = acc.sum := by
          simp [stepCell, htrim, hc, hcut]
        rw [hstep, List.filter_cons, if_neg hcut]

theorem colAccOf_sum (raws : List (List Char)) (co : Option JsNum) :
    (colAccOf raws co).sum = jsSum ((raws.filterMap cleanNumberString).filter (cutoffOk co)) := by
  unfold colAccOf jsSum
  exact colAcc_fold_sum co raws ColAcc.init

theorem runTaskAux_attempts_le {α : Type} [DecidableEq α] (script : Script α) :
    ∀ (left attempt : Nat) (prev : List α), (runTaskAux script attempt left prev).2 ≤ left := by
  intro left
  induction left with
  | zero => intro attempt prev; simp [runTaskAux]
  | succ left ih =>
    intro attempt prev
    simp only [runTaskAux]
    split
    · split <;> exact Nat.le_add_left 1 left
    · split
      · split <;> exact Nat.le_add_left 1 left
      · split
        · split
          · exact Nat.le_add_left 1 left
          · exact Nat.succ_le_succ (ih (attempt + 1) _)
        · exact Nat.succ_le_succ (ih (attempt + 1) _)

theorem sessionAux_le {α : Type} [DecidableEq α] (oracle : Nat → Script α)
    (time : Nat → Nat) :
    ∀ (fuel tc : Nat) (cur : Option String), tc ≤ 20 →
      sessionAux oracle time fuel tc cur ≤ 20 := by
  intro fuel
  induction fuel with
  | zero =>
    intro tc cur h
    unfold sessionAux
    cases cur with
    | none => exact h
    | some u =>
      dsimp only
      by_cases hA : TIMEOUT_MS ≤ time tc
      · rw [if_pos hA]; exact h
      · rw [if_neg hA]
        by_cases hB : 20 ≤ tc
        · rw [if_pos hB]; exact h
        · rw [if_neg hB]; exact h
  | succ fuel ih =>
    intro tc cur h
    unfold sessionAux
    cases cur with
    | none => exact h
    | some u =>
      dsimp only
      by_cases hA : TIMEOUT_MS ≤ time tc
      · rw [if_pos hA]; exact h
      · rw [if_neg hA]
        by_cases hB : 20 ≤ tc
        · rw [if_pos hB]; exact h
        · rw [if_neg hB]
          have htc : tc + 1 ≤ 20 := by omega
          split <;> exact ih (tc + 1) _ htc

/-! ## Concrete scripts and oracles used by the claim theorems -/

/-- Every attempt resolves the answer 42, every submission is judged
incorrect, and no next URL is ever offered. -/
def script42 : Script Nat := fun _ => (42, ⟨false, none⟩)

def oracle42 : Nat → Script Nat := fun _ => script42

/-- Every attempt resolves a fresh answer (the attempt number), every
submission is judged incorrect, and no next URL is ever offered. -/
def scriptNovel : Script Nat := fun attempt => (attempt, ⟨false, none⟩)

def oracleNovel : Nat → Script Nat := fun _ => scriptNovel

/-- Incorrect submissions of a fixed answer with a next URL offered. -/
def scriptMaxUrl : Script Nat := fun _ => (7, ⟨false, some "next"⟩)

/-- A session clock that never advances. -/
def timeZero : Nat → Nat := fun _ => 0

/-- A session clock that has already reached the deadline. -/
def timeExpired : Nat → Nat := fun _ => TIMEOUT_MS

/-- The instruction text of the C7 counterexample: it contains both
`at least 10` and `greater than 5`, but an earlier `>= 7`. -/
def cexText7 : List Char := cs "count entries >= 7 or at least 10 or greater than 5"

/-! ## Claim theorems -/

/-- Claim C1: for every delimited-text input whose first non-empty line has a
numeric-field fraction exceeding the header threshold, `processCSV` treats
that first line as data — every non-empty line becomes a row, the first row
is built from the first line, never consumed as a header — and synthetic
positional column identifiers `col0`, `col1`, … are assigned. -/
theorem claim_C1 (csv : List Char) (h : isHeaderless csv = true) :
    processCSVRows csv = (nonEmptyLines csv).map headerlessRow ∧
    (processCSVRows csv).head? = ((nonEmptyLines csv).head?).map headerlessRow ∧
    ∀ line, (headerlessRow line).map Prod.fst =
      (List.range ((splitOnChar ',' line).map jsTrim).length).map colName := by
  refine ⟨by simp [processCSVRows, h], ?_, ?_⟩
  · simp [processCSVRows, h]
  · intro line
    unfold headerlessRow
    rw [List.map_map]
    have hcomp : (Prod.fst ∘ fun p : Nat × List Char => (colName p.1, p.2)) =
        colName ∘ Prod.fst := rfl
    rw [hcomp, ← List.map_map, List.enum_map_fst]

/-- Witness for C1 at the concrete headerless input `"5,6\n7,8"`. -/
theorem claim_C1_witness :
    isHeaderless (cs "5,6\n7,8") = true ∧
    (processCSVRows (cs "5,6\n7,8")).head? = some (headerlessRow (cs "5,6")) ∧
    (headerlessRow (cs "5,6")).map Prod.fst = [cs "col0", cs "col1"] := by
  refine ⟨by decide, ?_, by decide⟩
  exact ((claim_C1 (cs "5,6\n7,8") (by decide)).2.1).trans (by decide)

/-- Claim C2: a supplied cutoff is applied as a filter to each individual
numeric value before summation, never to the aggregate — the accumulated
column sum equals the sum of the individually filtered cleaned values — and
the end-to-end scenario of page text `"Cutoff: 100"` with the headerless
single-column CSV `"5\n95\n150\n30\n"` yields the tabular answer 130. -/
theorem claim_C2 :
    (∀ (raws : List (List Char)) (c : JsNum),
        (colAccOf raws (some c)).sum =
          jsSum ((raws.filterMap cleanNumberString).filter (fun v => jsLt v c))) ∧
    extractCutoffFromText (cs "Cutoff: 100") = some 100 ∧
    (sumCsvColumnEnhanced (cs "5\n95\n150\n30\n") (some (jsOfNat 100))).toRat = 130 := by
  refine ⟨?_, by decide, ?_⟩
  · intro raws c
    have hfun : cutoffOk (some c) = fun v => jsLt v c := rfl
    have := colAccOf_sum raws (some c)
    rwa [hfun] at this
  · have h : sumCsvColumnEnhanced (cs "5\n95\n150\n30\n") (some (jsOfNat 100)) = ⟨130, 1⟩ := by
      decide
    rw [h]
    simp [JsNum.toRat]

/-- Claim C3: numeric cleaning decodes `"$1,234.50"` to 1234.5, `"(5)"` to
-5 and `"12%"` to 12, and a cell that fails all cleaning rules contributes
neither to the sum nor to the numeric-hit count — it is excluded entirely,
never coerced to 0. -/
theorem claim_C3 :
    (cleanNumberString (cs "$1,234.50")).map JsNum.toRat = some (1234.5 : ℚ) ∧
    (cleanNumberString (cs "(5)")).map JsNum.toRat = some (-5 : ℚ) ∧
    (cleanNumberString (cs "12%")).map JsNum.toRat = some (12 : ℚ) ∧
    (∀ (raws : List (List Char)) (bad : List Char) (co : Option JsNum),
        cleanNumberString bad = none →
        (colAccOf (raws ++ [bad]) co).sum = (colAccOf raws co).sum ∧
        (colAccOf (raws ++ [bad]) co).hits = (colAccOf raws co).hits) := by
  refine ⟨?_, ?_, ?_, ?_⟩
  · have h : cleanNumberString (cs "$1,234.50") = some ⟨123450, 100⟩ := by decide
    rw [h]
    simp [JsNum.toRat]
    norm_num
  · have h : cleanNumberString (cs "(5)") = some ⟨-5, 1⟩ := by decide
    rw [h]
    simp [JsNum.toRat]
  · have h : cleanNumberString (cs "12%") = some ⟨12, 1⟩ := by decide
    rw [h]
    simp [JsNum.toRat]
  · intro raws bad co hbad
    have happ : colAccOf (raws ++ [bad]) co = stepCell co (colAccOf raws co) bad := by
      unfold colAccOf
      rw [List.foldl_append]
      rfl
    rw [happ]
    exact stepCell_of_clean_none hbad

/-- Witness for C3's exclusion property at the failing cell `"n/a"`. -/
theorem claim_C3_witness :
    cleanNumberString (cs "n/a") = none ∧
    (colAccOf [cs "5", cs "n/a"] none).sum = (colAccOf [cs "5"] none).sum := by
  refine ⟨by decide, ?_⟩
  exact (claim_C3.2.2.2 [cs "5"] (cs "n/a") none (by decide)).1

/-- Claim C4: once an incorrect submission repeats an answer already
attempted for the task, no further retry occurs — the loop immediately
advances on a next URL and otherwise stops the session; in particular,
consecutive incorrect submissions all equal to 42 with no next URL offered
terminate the session (after two attempts) without a fourth attempt. -/
theorem claim_C4 :
    (∀ (α : Type) [DecidableEq α] (script : Script α) (attempt left : Nat) (prev : List α),
        (script attempt).2.correct = false → (script attempt).1 ∈ prev →
        runTaskAux script attempt (left + 1) prev =
          (match (script attempt).2.url with
           | some u => (TaskExit.dupAdvance u, 1)
           | none => (TaskExit.dupStop, 1))) ∧
    runTask script42 = (TaskExit.dupStop, 2) ∧
    sessionCount oracle42 timeZero (some "start") = 1 := by
  refine ⟨?_, by decide, by decide⟩
  intro α _ script attempt left prev hc hm
  simp only [runTaskAux, hc, hm]
  simp

/-- Witness for C4: attempt 2 of the constant-42 script repeats the answer
recorded at attempt 1 and stops the task with a single further attempt. -/
theorem claim_C4_witness :
    (script42 2).2.correct = false ∧ (script42 2).1 ∈ [42] ∧
    runTaskAux script42 2 2 [42] = (TaskExit.dupStop, 1) := by
  refine ⟨by decide, by decide, ?_⟩
  exact claim_C4.1 Nat script42 2 1 [42] (by decide) (by decide)

/-- Counterexample to claim C5: when the retry ceiling is exhausted with
novel answers and no next URL is offered, the session does NOT terminate —
the first task exits `exhausted` with no URL, yet the session goes on to
process 20 tasks (re-entering the loop with the same URL) instead of 1. -/
theorem claim_C5_counterexample :
    (runTask scriptNovel).1 = TaskExit.exhausted ∧
    (runTask scriptNovel).2 = MAX_RETRIES_PER_TASK ∧
    sessionCount oracleNovel timeZero (some "start") = 20 ∧
    sessionCount oracleNovel timeZero (some "start") ≠ 1 := by decide

/-- Claim C5 (amended): the number of attempts never exceeds the fixed
per-task retry ceiling of 3; when the last allowed attempt is incorrect with
a novel answer and a next URL is offered, the driver advances anyway; but
when the ceiling is exhausted with no next URL offered the session does not
terminate — it re-enters the loop with the same URL and is bounded only by
the deadline and the 20-task ceiling. -/
theorem claim_C5 :
    (∀ (α : Type) [DecidableEq α] (script : Script α),
        (runTask script).2 ≤ MAX_RETRIES_PER_TASK) ∧
    (∀ (α : Type) [DecidableEq α] (script : Script α) (attempt : Nat) (prev : List α)
        (u : String),
        (script attempt).2.correct = false → (script attempt).1 ∉ prev →
        (script attempt).2.url = some u →
        runTaskAux script attempt 1 prev = (TaskExit.maxAdvance u, 1)) ∧
    (∀ (α : Type) [DecidableEq α] (oracle : Nat → Script α) (time : Nat → Nat)
        (fuel tc : Nat) (u : String),
        time tc < TIMEOUT_MS → tc < 20 →
        (runTask (oracle tc)).1 = TaskExit.exhausted →
        sessionAux oracle time (fuel + 1) tc (some u) =
          sessionAux oracle time fuel (tc + 1) (some u)) := by
  refine ⟨?_, ?_, ?_⟩
  · intro α _ script
    exact runTaskAux_attempts_le script MAX_RETRIES_PER_TASK 1 []
  · intro α _ script attempt prev u hc hm hu
    have h1 : (1 : Nat) = 0 + 1 := rfl
    rw [h1]
    simp only [runTaskAux, hc, hm, hu]
    simp
  · intro α _ oracle time fuel tc u h1 h2 h3
    conv_lhs => rw [sessionAux]
    rw [if_neg (by omega), if_neg (by omega), h3]

/-- Witness for C5 at concrete scripts: the novel-answer script uses at most
3 attempts; a last-attempt incorrect novel answer with a URL advances; and an
exhausted task makes the session continue with the same URL. -/
theorem claim_C5_witness :
    (runTask scriptNovel).2 ≤ MAX_RETRIES_PER_TASK ∧
    runTaskAux scriptMaxUrl 3 1 [1, 2] = (TaskExit.maxAdvance "next", 1) ∧
    sessionAux oracleNovel timeZero 1 0 (some "s") =
      sessionAux oracleNovel timeZero 0 1 (some "s") := by
  refine ⟨claim_C5.1 Nat scriptNovel, ?_, ?_⟩
  · exact claim_C5.2.1 Nat scriptMaxUrl 3 [1, 2] "next" (by decide) (by decide) (by decide)
  · exact claim_C5.2.2 Nat oracleNovel timeZero 0 0 "s" (by decide) (by decide) (by decide)

/-- Claim C6: the transcript's fields override the page-text fields
field-by-field — whenever the parsed audio instruction carries a filter, that
filter is the one applied, for every page-conditions text; concretely, page
text implying `{>=, 5}` together with a transcript implying `{<, 30064}`
merges to `{<, 30064}`. -/
theorem claim_C6 :
    (∀ (t conds : List Char) (ai : AudioInstr) (f : JFilter),
        parseAudioInstructions t = some ai → ai.filter = some f →
        mergedFilterCondition (parseAudioInstructions t) conds = some f) ∧
    mergedFilterCondition
      (parseAudioInstructions (cs "Please sum only the values less than 30064"))
      (cs "sum values greater than or equal to 5") = some ⟨"<", jsOfNat 30064⟩ ∧
    pageConditionFilter (cs "sum values greater than or equal to 5") =
      some ⟨">=", jsOfNat 5⟩ := by
  refine ⟨?_, by decide, by decide⟩
  intro t conds ai f hai hf
  rw [hai]
  simp [mergedFilterCondition, hf]

/-- Witness for C6 at a different page-conditions text. -/
theorem claim_C6_witness :
    mergedFilterCondition
      (parseAudioInstructions (cs "Please sum only the values less than 30064"))
      (cs "Cutoff: 5") = some ⟨"<", jsOfNat 30064⟩ := by
  exact claim_C6.1 (cs "Please sum only the values less than 30064") (cs "Cutoff: 5")
    ⟨cs "Please sum only the values less than 30064", some "sum",
      some ⟨"<", jsOfNat 30064⟩, none⟩
    ⟨"<", jsOfNat 30064⟩ (by decide) (by decide)

/-- Counterexample to claim C7 as stated: this text contains both
`at least 10` and `greater than 5`, yet the extracted filter is
`{>=, 7}` (the leftmost `>=`-family occurrence wins), not `{>=, 10}`. -/
theorem claim_C7_counterexample :
    containsSub (cs "at least 10") (toLowerList cexText7) = true ∧
    containsSub (cs "greater than 5") (toLowerList cexText7) = true ∧
    parseAudioInstructions cexText7 =
      some ⟨cexText7, some "count", some ⟨">=", jsOfNat 7⟩, none⟩ ∧
    (⟨">=", jsOfNat 7⟩ : JFilter) ≠ ⟨">=", jsOfNat 10⟩ := by decide

/-- Claim C7 (amended): operator patterns are tried in the fixed precedence
order `>=`/`at least` → `<=`/`at most` → `>` → `<`, so every instruction text
containing `at least 10` extracts a filter with operator `>=` — never the
less specific `>` even when `greater than 5` also occurs — with the value
taken from the leftmost `>=`-family occurrence; in particular the text
`sum values at least 10 and greater than 5` yields `{>=, 10}`. -/
theorem claim_C7 :
    (∀ (t : List Char) (ai : AudioInstr),
        parseAudioInstructions t = some ai →
        containsSub (cs "at least 10") (toLowerList t) = true →
        ∃ v : Nat, ai.filter = some ⟨">=", jsOfNat v⟩) ∧
    parseAudioInstructions (cs "sum values at least 10 and greater than 5") =
      some ⟨cs "sum values at least 10 and greater than 5", some "sum",
        some ⟨">=", jsOfNat 10⟩, none⟩ := by
  refine ⟨?_, by decide⟩
  intro t ai hai hcont
  have ht : t ≠ [] := by
    intro h0
    rw [h0] at hai
    simp [parseAudioInstructions] at hai
  have hfil : ai.filter = extractAudioFilter (toLowerList t) := by
    unfold parseAudioInstructions at hai
    rw [if_neg ht] at hai
    cases hai
    rfl
  rw [hfil]
  obtain ⟨a, b, hab⟩ := containsSub_iff.mp hcont
  have hsplit10 : (cs "at least 10" : List Char) = cs "at least" ++ cs " 10" := by decide
  have hge : geTest (toLowerList t) = true := by
    unfold geTest
    have hc : containsSub (cs "at least") (toLowerList t) = true := by
      apply containsSub_iff.mpr
      exact ⟨a, cs " 10" ++ b, by rw [hab, hsplit10]; simp⟩
    simp [hc]
  have hscan : scanTok geAlts (toLowerList t) ≠ none := by
    intro hnone
    have hsuf : tryTokAt geAlts (cs "at least 10" ++ b) = none := by
      apply scanTok_none_suffix a (cs "at least 10" ++ b)
      rw [← hab]
      exact hnone
    have hmem : ((cs "at least", ()) ∈ geAlts) := by simp [geAlts]
    exact tryTokAt_ne_none_of_mem hmem (matchOpAt_atLeast10 b) hsuf
  obtain ⟨p, hp⟩ := Option.ne_none_iff_exists'.mp hscan
  refine ⟨p.2, ?_⟩
  unfold extractAudioFilter
  simp [hge, hp]

/-- Witness for C7's general part at the concrete amended-scenario text. -/
theorem claim_C7_witness :
    containsSub (cs "at least 10")
      (toLowerList (cs "sum values at least 10 and greater than 5")) = true ∧
    ∃ v : Nat,
      (AudioInstr.filter ⟨cs "sum values at least 10 and greater than 5", some "sum",
        some ⟨">=", jsOfNat 10⟩, none⟩) = some ⟨">=", jsOfNat v⟩ := by
  refine ⟨by decide, ?_⟩
  exact claim_C7.1 (cs "sum values at least 10 and greater than 5")
    ⟨cs "sum values at least 10 and greater than 5", some "sum",
      some ⟨">=", jsOfNat 10⟩, none⟩ (by decide) (by decide)

/-- Counterexample to claim C8 as stated: in `solver-llm.js` the resolution
boundary applies no sentinel substitution — an empty reasoning response with
no computed CSV sum reaches the submission payload as the empty string. -/
theorem claim_C8_counterexample :
    llmAnswerAtBoundary [] none [] = JSVal.str [] ∧
    answerPresent (llmAnswerAtBoundary [] none []) = false := by decide

/-- Claim C8 (amended): the legacy solver's boundary function
`ensureNonEmptyAnswer` (fallback sentinel `anything`) always produces a
present, non-blank answer — null/undefined and blank strings become the
sentinel and the number 0 becomes the string `"0"` — whereas the
`solver-llm.js` boundary performs no such substitution and can return an
empty string. -/
theorem claim_C8 :
    (∀ v : JSVal, answerPresent (ensureNonEmptyAnswer v (JSVal.str (cs "anything"))) = true) ∧
    answerPresent (llmAnswerAtBoundary [] none []) = false := by
  refine ⟨?_, by decide⟩
  intro v
  cases v with
  | null => decide
  | str s =>
    by_cases h : jsTrim s = []
    · simp only [ensureNonEmptyAnswer, h, if_pos]
      decide
    · simp [ensureNonEmptyAnswer, h, answerPresent]
  | num q =>
    by_cases h : jsEq q jsZero = true
    · simp only [ensureNonEmptyAnswer, h, if_pos]
      decide
    · simp [ensureNonEmptyAnswer, h, answerPresent]

/-- Claim C9: the session loop checks its termination conditions before each
task — no current URL, the 2.5-minute deadline, or the 20-task ceiling stop
it on the spot — and consequently no session processes more than 20 tasks. -/
theorem claim_C9 :
    (∀ (α : Type) [DecidableEq α] (oracle : Nat → Script α) (time : Nat → Nat)
        (u0 : Option String), sessionCount oracle time u0 ≤ 20) ∧
    (∀ (α : Type) [DecidableEq α] (oracle : Nat → Script α) (time : Nat → Nat),
        sessionCount oracle time none = 0) ∧
    (∀ (α : Type) [DecidableEq α] (oracle : Nat → Script α) (time : Nat → Nat) (u : String),
        TIMEOUT_MS ≤ time 0 → sessionCount oracle time (some u) = 0) ∧
    (∀ (α : Type) [DecidableEq α] (oracle : Nat → Script α) (time : Nat → Nat)
        (fuel tc : Nat) (u : String), 20 ≤ tc →
        sessionAux oracle time fuel tc (some u) = tc) := by
  refine ⟨?_, ?_, ?_, ?_⟩
  · intro α _ oracle time u0
    exact sessionAux_le oracle time 20 0 u0 (by omega)
  · intro α _ oracle time
    rfl
  · intro α _ oracle time u h
    unfold sessionCount sessionAux
    dsimp only
    rw [if_pos h]
  · intro α _ oracle time fuel tc u h
    unfold sessionAux
    dsimp only
    by_cases hA : TIMEOUT_MS ≤ time tc
    · rw [if_pos hA]
    · rw [if_neg hA, if_pos h]

/-- Witness for C9: an expired clock stops the session before the first
task; a task count at the ceiling stops the loop on the spot. -/
theorem claim_C9_witness :
    sessionCount oracle42 timeExpired (some "s") = 0 ∧
    sessionAux oracle42 timeZero 5 20 (some "s") = 20 := by
  refine ⟨?_, ?_⟩
  · exact claim_C9.2.2.1 Nat oracle42 timeExpired "s" (by decide)
  · exact claim_C9.2.2.2 Nat oracle42 timeZero 5 20 "s" (by decide)

/-- Claim C10: `processCSV`'s filter step recognises only `<`, `>`, `<=`,
`>=` and `==` — any other operator string, `!=` included, leaves the number
list completely unfiltered, so the sum equals the unfiltered sum — whereas
`sumNumbersWithCondition` does implement `!=`. -/
theorem claim_C10 :
    (∀ (ns : List JsNum) (op : String) (v : JsNum),
        op ∉ (["<", ">", "<=", ">=", "=="] : List String) →
        processCSVFilter ns (some ⟨op, v⟩) = ns) ∧
    (∀ (ns : List JsNum) (v : JsNum),
        jsSum (processCSVFilter ns (some ⟨"!=", v⟩)) = jsSum ns) ∧
    (∀ ns : List JsNum,
        sumNumbersWithCondition ns (cs "!= 5") =
          jsSum (ns.filter (fun n => !(jsEq n (jsOfNat 5))))) := by
  have hA : ∀ (ns : List JsNum) (op : String) (v : JsNum),
      op ∉ (["<", ">", "<=", ">=", "=="] : List String) →
      processCSVFilter ns (some ⟨op, v⟩) = ns := by
    intro ns op v hop
    simp only [List.mem_cons, List.not_mem_nil, or_false, not_or] at hop
    obtain ⟨h1, h2, h3, h4, h5⟩ := hop
    simp [processCSVFilter, h1, h2, h3, h4, h5]
  refine ⟨hA, ?_, ?_⟩
  · intro ns v
    rw [hA ns "!=" v (by decide)]
  · intro ns
    rfl

/-- Witness for C10 at the list `[1, 5, 7]` and threshold 5: the `processCSV`
filter step keeps everything, while `sumNumbersWithCondition` drops 5. -/
theorem claim_C10_witness :
    processCSVFilter [⟨1, 1⟩, ⟨5, 1⟩, ⟨7, 1⟩] (some ⟨"!=", jsOfNat 5⟩) =
      [⟨1, 1⟩, ⟨5, 1⟩, ⟨7, 1⟩] ∧
    (sumNumbersWithCondition [⟨1, 1⟩, ⟨5, 1⟩, ⟨7, 1⟩] (cs "!= 5")).toRat = 8 := by
  refine ⟨claim_C10.1 [⟨1, 1⟩, ⟨5, 1⟩, ⟨7, 1⟩] "!=" (jsOfNat 5) (by decide), ?_⟩
  have h : sumNumbersWithCondition [⟨1, 1⟩, ⟨5, 1⟩, ⟨7, 1⟩] (cs "!= 5") = ⟨8, 1⟩ := by decide
  rw [h]
  simp [JsNum.toRat]

end QuizSolver
